import Mathlib

/-!
Verification of the `callinit` utility (`src/main.rs`): a shallow embedding
of its pure functions and UI state machine, with theorems checking the
natural-language specification against the code.

Rust strings are modelled as `List Char`; `str::len` (a UTF-8 byte count)
is modelled by `utf8Len`; `Option<String>` by `Option (List Char)`.
-/

namespace Callinit

/-- The character filter used by `format_e164`:
`c.is_ascii_digit() || *c == '+'`. -/
def keepDigitPlus (c : Char) : Bool :=
  c.isDigit || c == '+'

/-- Embedding of `MyApp::format_e164` from `src/main.rs`:
```
let digits: String = number.chars().filter(|c| c.is_ascii_digit() || *c == '+').collect();
if digits.starts_with('+') { digits }
else if let Some(ref cc) = self.country_code {
    if digits.starts_with('0') { format!("+{}{}", cc, &digits[1..]) }
    else { format!("+{}{}", cc, digits) }
} else { digits }
```
(`&digits[1..]` drops the one-byte leading `'0'`, i.e. `digits.tail`). -/
def format_e164 (country_code : Option (List Char)) (number : List Char) : List Char :=
  let digits := number.filter keepDigitPlus
  if digits.head? = some '+' then
    digits
  else
    match country_code with
    | some cc =>
      if digits.head? = some '0' then
        '+' :: (cc ++ digits.tail)
      else
        '+' :: (cc ++ digits)
    | none => digits

/-- Rust `char::is_whitespace`: the Unicode `White_Space` property. -/
def rustIsWhitespace (c : Char) : Bool :=
  c.toNat = 0x09 || c.toNat = 0x0A || c.toNat = 0x0B || c.toNat = 0x0C ||
  c.toNat = 0x0D || c.toNat = 0x20 || c.toNat = 0x85 || c.toNat = 0xA0 ||
  c.toNat = 0x1680 || (0x2000 ≤ c.toNat && c.toNat ≤ 0x200A) ||
  c.toNat = 0x2028 || c.toNat = 0x2029 || c.toNat = 0x202F ||
  c.toNat = 0x205F || c.toNat = 0x3000

/-- Rust `str::trim`: strip leading and trailing whitespace characters. -/
def rustTrim (s : List Char) : List Char :=
  ((s.dropWhile rustIsWhitespace).reverse.dropWhile rustIsWhitespace).reverse

/-- The UTF-8 encoded size of a character, so that `utf8Len` matches
Rust `str::len` (a byte count). -/
def charUtf8Size (c : Char) : Nat :=
  if c.toNat ≤ 0x7F then 1
  else if c.toNat ≤ 0x7FF then 2
  else if c.toNat ≤ 0xFFFF then 3
  else 4

/-- Rust `str::len` on the modelled string: total UTF-8 byte count. -/
def utf8Len (s : List Char) : Nat :=
  (s.map charUtf8Size).sum

/-- The character class accepted by `looks_like_phone_number`:
ASCII digit, `+`, `-`, space, `(` or `)`. -/
def validPhoneChar (c : Char) : Bool :=
  c.isDigit || c == '+' || c == '-' || c == ' ' || c == '(' || c == ')'

/-- Embedding of `MyApp::looks_like_phone_number` from `src/main.rs`:
trim, reject empty or byte-length above 20, then require
at least 6 ASCII digits and only `validPhoneChar` characters. -/
def looks_like_phone_number (text : List Char) : Bool :=
  let trimmed := rustTrim text
  if trimmed.isEmpty || decide (utf8Len trimmed > 20) then
    false
  else
    let digit_count := (trimmed.filter (fun c => c.isDigit)).length
    let valid_chars := trimmed.all validPhoneChar
    decide (digit_count ≥ 6) && valid_chars

/-- One ntfy action descriptor from the JSON body built in
`send_http_request`. -/
structure NtfyAction where
  action : List Char
  label : List Char
  url : List Char
  clear : Bool
  deriving DecidableEq

/-- The outbound HTTP request built by the publish task in
`send_http_request`: method POST to `https://ntfy.sh`, `Title` header,
optional `Authorization` header, and the JSON body fields. -/
structure PublishRequest where
  title : List Char
  authorization : Option (List Char)
  topic : List Char
  message : List Char
  actions : List NtfyAction
  deriving DecidableEq

/-- The request the spawned thread builds from the snapshot
`(auth_token, notify_topic)` and the normalized `text`:
`Title: Call <text>`, `Authorization: Bearer <token>` iff a token is
present, body `{topic: notify_topic.unwrap_or_default(), message: text,
actions: [Call tel:, SMS sms:, WhatsApp https://wa.me/ with
text.trim_start_matches('+')]}`. -/
def buildRequest (auth_token notify_topic : Option (List Char))
    (text : List Char) : PublishRequest :=
  { title := "Call ".toList ++ text
    authorization := auth_token.map (fun token => "Bearer ".toList ++ token)
    topic := notify_topic.getD []
    message := text
    actions :=
      [ { action := "view".toList, label := "Call".toList
          url := "tel:".toList ++ text, clear := true }
      , { action := "view".toList, label := "SMS".toList
          url := "sms:".toList ++ text, clear := true }
      , { action := "view".toList, label := "WhatsApp".toList
          url := "https://wa.me/".toList ++ text.dropWhile (fun c => c == '+')
          clear := true } ] }

/-- The URL of the third (WhatsApp) action of a request. -/
def whatsappUrl (r : PublishRequest) : List Char :=
  (r.actions.getD 2 { action := [], label := [], url := [], clear := false }).url

/-- The outcome of the blocking `reqwest` call inside the spawned thread. -/
inductive HttpOutcome where
  | success (status : Nat) (body : List Char)
  | failure (err : List Char)

/-- The completion signals the spawned thread sends on the channel: it
matches on the HTTP result (logging on either branch) and then executes
`sender.send("complete")` exactly once. -/
def publishTaskSignals (result : HttpOutcome) : List (List Char) :=
  match result with
  | .success _ _ => ["complete".toList]
  | .failure _ => ["complete".toList]

/-- The fields of `MyApp` relevant to the state machine. The one-shot
`mpsc::Sender` is modelled by `Option Unit`: `some ()` while the sender is
still held, `none` once `http_sender.take()` has consumed it. -/
structure AppState where
  input_text : List Char
  should_focus : Bool
  http_sender : Option Unit
  waiting_for_response : Bool
  auth_token : Option (List Char)
  country_code : Option (List Char)
  notify_topic : Option (List Char)
  deriving DecidableEq

/-- Embedding of `MyApp::send_http_request` from `src/main.rs`, as a state transition
returning the request spawned on the worker thread (if any):
```
if let Some(sender) = self.http_sender.take() {
    let text = self.format_e164(&self.input_text);
    if text.is_empty() { return; }
    ... thread::spawn(...) ...
    self.waiting_for_response = true;
}
```
`take()` removes the sender before the emptiness check, so the sender is
consumed (and dropped) even when `text` is empty. -/
def send_http_request (s : AppState) : AppState × Option PublishRequest :=
  match s.http_sender with
  | some _ =>
    let text := format_e164 s.country_code s.input_text
    if text = [] then
      ({ s with http_sender := none }, none)
    else
      ({ s with http_sender := none, waiting_for_response := true },
       some (buildRequest s.auth_token s.notify_topic text))
  | none => (s, none)

/-- The per-frame keyboard input seen by `update`: `enter_commit` is
`response.lost_focus() && key_pressed(Enter)`, `escape` is
`key_pressed(Escape)`. -/
structure FrameInput where
  enter_commit : Bool
  escape : Bool
  deriving DecidableEq

/-- The observable outcome of one `update` frame. -/
structure FrameResult where
  state : AppState
  channel : List (List Char)
  close_requested : Bool
  dispatched : Option PublishRequest
  deriving DecidableEq

/-- Embedding of `MyApp::update` (one frame of `eframe::App::update`), with the
completion channel's pending messages passed explicitly (FIFO list):
first `try_recv`; on `Ok` request window close and return early.
Otherwise clear the one-shot focus flag, handle a committing Enter press
(`!input_text.is_empty() && !waiting_for_response` guards the dispatch),
and request close if Escape was pressed. -/
def update (s : AppState) (channel : List (List Char)) (fi : FrameInput) :
    FrameResult :=
  match channel with
  | _ :: rest =>
    { state := s, channel := rest, close_requested := true, dispatched := none }
  | [] =>
    let s1 := if s.should_focus then { s with should_focus := false } else s
    let sr :=
      if fi.enter_commit && (!s1.input_text.isEmpty && !s1.waiting_for_response) then
        send_http_request s1
      else
        (s1, none)
    { state := sr.1, channel := [], close_requested := fi.escape,
      dispatched := sr.2 }

/-- A parsed INI file as the `ini!` macro yields it: an association list
from section names to association lists from keys to optional values
(a key present without a value parses to `none`). -/
def IniMap (α : Type) : Type := List (List Char × α)

/-- Association-list lookup, modelling `HashMap` access. -/
def iniLookup {α : Type} (m : IniMap α) (k : List Char) : Option α :=
  match m with
  | [] => none
  | (k', v) :: rest => if k' = k then some v else iniLookup rest k

/-- Rust `HashMap` bracket indexing (`map[key]`), which panics when the
key is absent; the panic is modelled as `Except.error ()`. -/
def hashIndex {α : Type} (m : IniMap α) (k : List Char) : Except Unit α :=
  match iniLookup m k with
  | some v => .ok v
  | none => .error ()

/-- Embedding of `MyApp::read_config` from `src/main.rs`, over the map the `ini!`
macro parsed from `<home>/.config/callinit.ini`:
```
let auth_token = map["auth"]["token"].clone();
let country_code = map["phone"]["country_code"].clone();
let notify_topic = map["notify"]["topic"].clone();
```
Each bracket index panics (`Except.error ()`) when the section or key is
absent. -/
def read_config (map : IniMap (IniMap (Option (List Char)))) :
    Except Unit (Option (List Char) × Option (List Char) × Option (List Char)) := do
  let authSection ← hashIndex map ("auth".toList)
  let auth_token ← hashIndex authSection ("token".toList)
  let phoneSection ← hashIndex map ("phone".toList)
  let country_code ← hashIndex phoneSection ("country_code".toList)
  let notifySection ← hashIndex map ("notify".toList)
  let notify_topic ← hashIndex notifySection ("topic".toList)
  return (auth_token, country_code, notify_topic)

/-- The E.164 normalizer exactly as the specification words it (claim C1,
spec 4.4): build digits by retaining only ASCII decimal digits and plus
signs, return them unchanged when they start with a plus, otherwise
prepend a plus and the configured country code, with one leading zero of
the digits dropped when they start with a zero. Written to be compared
with `format_e164`, which is translated from the source. -/
def specNormalize (country_code : Option (List Char)) (raw : List Char) : List Char :=
  let digits := raw.filter (fun c => c.isDigit || c == '+')
  if digits.head? = some '+' then
    digits
  else
    match country_code with
    | some cc =>
      '+' :: (cc ++ (if digits.head? = some '0' then digits.drop 1 else digits))
    | none => digits

/-- The phone-shape predicate exactly as the specification words it
(claim C8, spec 4.3): after trimming, the string is non-empty, its length
is at most 20, every character is an ASCII digit, plus, hyphen, space or
parenthesis, and at least 6 characters are ASCII digits. Written to be
compared with `looks_like_phone_number`, which is translated from the
source (and measures length in UTF-8 bytes, as Rust `str::len` does). -/
def specPhoneShape (text : List Char) : Prop :=
  rustTrim text ≠ [] ∧ (rustTrim text).length ≤ 20 ∧
  (∀ c ∈ rustTrim text, validPhoneChar c = true) ∧
  6 ≤ ((rustTrim text).filter (fun c => c.isDigit)).length

/-- Characters of the phone-shape class are ASCII, hence one UTF-8 byte. -/
theorem validPhoneChar_utf8Size (c : Char) (h : validPhoneChar c = true) :
    charUtf8Size c = 1 := by
  unfold validPhoneChar at h
  simp only [Bool.or_eq_true, beq_iff_eq] at h
  rcases h with ((((h | h) | h) | h) | h) | h
  · simp only [Char.isDigit, Bool.and_eq_true, decide_eq_true_eq] at h
    have h3 : c.toNat ≤ 57 := h.2
    unfold charUtf8Size
    rw [if_pos (by omega)]
  · subst h; rfl
  · subst h; rfl
  · subst h; rfl
  · subst h; rfl
  · subst h; rfl

/-- On a string of phone-shape characters the byte length is the
character count. -/
theorem utf8Len_of_valid (s : List Char) (h : s.all validPhoneChar = true) :
    utf8Len s = s.length := by
  induction s with
  | nil => rfl
  | cons c cs ih =>
    simp only [List.all_cons, Bool.and_eq_true] at h
    simp only [utf8Len, List.map_cons, List.sum_cons, List.length_cons]
    have := validPhoneChar_utf8Size c h.1
    have ih2 := ih h.2
    simp only [utf8Len] at ih2
    omega

/-- Filtering fixes a list all of whose elements pass the filter. -/
theorem filter_keep_self (l : List Char) (h : ∀ c ∈ l, keepDigitPlus c = true) :
    l.filter keepDigitPlus = l :=
  List.filter_eq_self.mpr h

/-- When the retained digits start with a plus, the normalizer returns
them unchanged, for any configured country code. -/
theorem format_e164_of_head_plus (cc : Option (List Char)) (raw : List Char)
    (h : (raw.filter keepDigitPlus).head? = some '+') :
    format_e164 cc raw = raw.filter keepDigitPlus := by
  unfold format_e164
  dsimp only
  rw [if_pos h]

/-- With a country code configured the normalizer output is non-empty and
starts with a plus. -/
theorem format_e164_some_spec (cc raw : List Char) :
    format_e164 (some cc) raw ≠ [] ∧
    (format_e164 (some cc) raw).head? = some '+' := by
  unfold format_e164
  dsimp only
  split
  · rename_i h
    constructor
    · intro heq
      rw [heq] at h
      exact Option.noConfusion h
    · exact h
  · split
    · exact ⟨by simp, rfl⟩
    · exact ⟨by simp, rfl⟩

/-- The frame's one-shot focus clearing always yields the state with
`should_focus` cleared. -/
theorem focus_clear (s : AppState) :
    (if s.should_focus then { s with should_focus := false } else s) =
      { s with should_focus := false } := by
  split
  · rfl
  · rename_i h
    cases s
    simp_all

/-- A frame seen while `waiting_for_response` holds dispatches nothing. -/
theorem update_noop_of_waiting (s : AppState) (ch : List (List Char))
    (fi : FrameInput) (h : s.waiting_for_response = true) :
    (update s ch fi).dispatched = none := by
  cases ch with
  | cons m rest => rfl
  | nil =>
    unfold update
    dsimp only
    rw [focus_clear]
    simp [h]

/-- A frame seen after the one-shot sender was consumed dispatches
nothing. -/
theorem update_noop_of_no_sender (s : AppState) (ch : List (List Char))
    (fi : FrameInput) (h : s.http_sender = none) :
    (update s ch fi).dispatched = none := by
  cases ch with
  | cons m rest => rfl
  | nil =>
    unfold update
    dsimp only
    rw [focus_clear]
    split
    · simp [send_http_request, h]
    · rfl

/-- After a frame that dispatched a request, the state is waiting, the
sender is consumed and the focus flag is clear. -/
theorem dispatch_aftermath (s : AppState) (fi : FrameInput) (req : PublishRequest)
    (h : (update s [] fi).dispatched = some req) :
    (update s [] fi).state.waiting_for_response = true ∧
    (update s [] fi).state.http_sender = none ∧
    (update s [] fi).state.should_focus = false := by
  unfold update at h ⊢
  dsimp only at h ⊢
  rw [focus_clear] at h ⊢
  split at h
  · rename_i hcond
    rw [if_pos hcond]
    unfold send_http_request at h ⊢
    dsimp only at h ⊢
    cases hsend : s.http_sender with
    | none =>
      rw [hsend] at h
      dsimp only at h
      injection h
    | some u =>
      rw [hsend] at h
      dsimp only at h ⊢
      split at h
      · dsimp only at h
        injection h
      · rename_i htext
        rw [if_neg htext]
        exact ⟨rfl, rfl, rfl⟩
  · rename_i hcond
    rw [if_neg hcond]
    dsimp only at h
    exact Option.noConfusion h

/-- A waiting state with the focus flag clear is left unchanged by a
frame with an empty channel, and dispatches nothing. -/
theorem update_noop_state (s : AppState) (fi : FrameInput)
    (hw : s.waiting_for_response = true) (hf : s.should_focus = false) :
    (update s [] fi).state = s ∧ (update s [] fi).dispatched = none := by
  unfold update
  dsimp only
  rw [focus_clear]
  have hs : ({ s with should_focus := false } : AppState) = s := by
    cases s
    simp_all
  rw [hs]
  simp [hw]

/-- C1. The E.164 normalizer builds `digits` by retaining only ASCII
decimal digits and plus signs from the raw input in order; if `digits`
starts with a plus it is returned unchanged, else with a country code
configured the code is prepended after a plus with one leading zero of
`digits` dropped, else `digits` is returned; and the five concrete
examples of the claim hold. -/
theorem format_e164_matches_spec :
    (∀ (cc : Option (List Char)) (raw : List Char),
      format_e164 cc raw = specNormalize cc raw) ∧
    (∀ cc : Option (List Char),
      format_e164 cc ("+14155550123".toList) = ("+14155550123".toList)) ∧
    format_e164 (some ("1".toList)) ("(415) 555-0123".toList) = ("+14155550123".toList) ∧
    format_e164 (some ("49".toList)) ("04155550123".toList) = ("+494155550123".toList) ∧
    format_e164 none ("4155550123".toList) = ("4155550123".toList) ∧
    format_e164 none ("abc".toList) = [] := by
  refine ⟨?_, ?_, by decide, by decide, by decide, by decide⟩
  · intro cc raw
    unfold format_e164 specNormalize keepDigitPlus
    dsimp only
    cases cc with
    | none => rfl
    | some l =>
      dsimp only
      split
      · rfl
      · split
        · rw [List.drop_one]
        · rfl
  · intro cc
    rw [format_e164_of_head_plus cc _ (by decide)]
    decide

/-- C2. Contrary to the claim, `read_config` does not turn a missing
section or key into an absent field: the bracket indexing panics. The
empty parsed config, a config whose only section is an empty `[auth]`,
and a config holding only `[auth] token` all panic (modelled as
`Except.error ()`) instead of returning `none` fields. -/
theorem read_config_panics_on_missing :
    read_config [] = Except.error () ∧
    read_config [(("auth".toList), [])] = Except.error () ∧
    read_config [(("auth".toList), [(("token".toList), some ("k".toList))])] =
      Except.error () :=
  ⟨rfl, rfl, rfl⟩

/-- C3. A submission whose normalization is empty is not the silent no-op
the claim describes: with no country code and input text lacking digits,
the Enter frame dispatches nothing and stays out of the waiting state,
but the one-shot sender has been consumed, so a later Enter frame with a
normalizable input also dispatches nothing. -/
theorem empty_normalization_consumes_sender :
    (update ⟨("abc".toList), false, some (), false, none, none, none⟩ []
      ⟨true, false⟩).dispatched = none ∧
    (update ⟨("abc".toList), false, some (), false, none, none, none⟩ []
      ⟨true, false⟩).state.waiting_for_response = false ∧
    (update ⟨("abc".toList), false, some (), false, none, none, none⟩ []
      ⟨true, false⟩).state.http_sender = none ∧
    (update { (update ⟨("abc".toList), false, some (), false, none, none, none⟩ []
        ⟨true, false⟩).state with input_text := ("+14155550123".toList) } []
      ⟨true, false⟩).dispatched = none :=
  ⟨rfl, rfl, rfl, rfl⟩

/-- C4 counterexample. An absent country code is not the same as an empty
one: on the digits-only input the absent code leaves the digits bare
while the empty code still prepends a plus. -/
theorem absent_vs_empty_country_code_cex :
    format_e164 none ("4155550123".toList) ≠
      format_e164 (some []) ("4155550123".toList) := by
  decide

/-- C4 as amended. An absent `notify_topic` and the empty one produce the
same JSON `topic` field; an absent `country_code` agrees with the empty
one only on inputs whose retained digits already start with a plus. -/
theorem absent_vs_empty_amended :
    (∀ (auth : Option (List Char)) (text : List Char),
      (buildRequest auth none text).topic = (buildRequest auth (some []) text).topic) ∧
    (∀ raw : List Char, (raw.filter keepDigitPlus).head? = some '+' →
      format_e164 none raw = format_e164 (some []) raw) := by
  constructor
  · intro auth text
    rfl
  · intro raw h
    rw [format_e164_of_head_plus none raw h, format_e164_of_head_plus (some []) raw h]

/-- Witness for the amended C4 at concrete inputs. -/
theorem absent_vs_empty_amended_witness :
    (buildRequest none none ("x".toList)).topic =
      (buildRequest none (some []) ("x".toList)).topic ∧
    format_e164 none ("+1".toList) = format_e164 (some []) ("+1".toList) :=
  ⟨absent_vs_empty_amended.1 none ("x".toList),
   absent_vs_empty_amended.2 ("+1".toList) (by decide)⟩

/-- C5. At most one publish task is in flight: a frame in the waiting
state dispatches nothing, a frame without the one-shot sender dispatches
nothing, and after a frame that dispatched, any further Enter frame
before the completion signal is a no-op that leaves the state unchanged,
the waiting flag set and the sender consumed. -/
theorem at_most_one_dispatch :
    (∀ (s : AppState) (ch : List (List Char)) (fi : FrameInput),
      s.waiting_for_response = true → (update s ch fi).dispatched = none) ∧
    (∀ (s : AppState) (ch : List (List Char)) (fi : FrameInput),
      s.http_sender = none → (update s ch fi).dispatched = none) ∧
    (∀ (s : AppState) (fi fi2 : FrameInput) (req : PublishRequest),
      (update s [] fi).dispatched = some req →
      (update (update s [] fi).state [] fi2).dispatched = none ∧
      (update (update s [] fi).state [] fi2).state = (update s [] fi).state ∧
      (update s [] fi).state.waiting_for_response = true ∧
      (update s [] fi).state.http_sender = none) := by
  refine ⟨update_noop_of_waiting, update_noop_of_no_sender, ?_⟩
  intro s fi fi2 req h
  obtain ⟨hw, hs, hf⟩ := dispatch_aftermath s fi req h
  obtain ⟨hstate, hdisp⟩ := update_noop_state _ fi2 hw hf
  exact ⟨hdisp, hstate, hw, hs⟩

/-- Witness for C5: a concrete waiting state ignores Enter, and after a
concrete dispatching frame the next Enter frame dispatches nothing. -/
theorem at_most_one_dispatch_witness :
    (update ⟨("415".toList), false, some (), true, none, none, none⟩ []
      ⟨true, false⟩).dispatched = none ∧
    (update (update ⟨("415".toList), false, some (), false, none, none, none⟩ []
        ⟨true, false⟩).state [] ⟨true, false⟩).dispatched = none :=
  ⟨at_most_one_dispatch.1 _ [] _ rfl,
   (at_most_one_dispatch.2.2 ⟨("415".toList), false, some (), false, none, none, none⟩
      ⟨true, false⟩ ⟨true, false⟩
      (buildRequest none none (format_e164 none ("415".toList))) (by decide)).1⟩

/-- C6. The publish task delivers exactly one completion signal whether
the HTTP request succeeds or fails; and a frame that finds a signal on
the channel requests window close. -/
theorem completion_signal_and_close :
    (∀ result : HttpOutcome, (publishTaskSignals result).length = 1) ∧
    (∀ (s : AppState) (msg : List Char) (rest : List (List Char)) (fi : FrameInput),
      (update s (msg :: rest) fi).close_requested = true) := by
  constructor
  · intro result
    cases result <;> rfl
  · intro s msg rest fi
    rfl

/-- C7 counterexample. The normalized message of raw input `++123` is
`++123` itself, which begins with a plus, yet the WhatsApp URL strips
both leading plus signs, not the single one the claim describes. -/
theorem whatsapp_url_single_strip_cex :
    format_e164 none ("++123".toList) = ("++123".toList) ∧
    ("++123".toList).head? = some '+' ∧
    whatsappUrl (buildRequest none none (format_e164 none ("++123".toList))) ≠
      ("https://wa.me/".toList) ++ ("++123".toList).tail := by
  refine ⟨by decide, rfl, by decide⟩

/-- C7 as amended. The third action's URL is `https://wa.me/` followed by
the message with all leading plus signs stripped, and the claim's two
concrete examples hold. -/
theorem whatsapp_url_amended :
    (∀ (auth topic : Option (List Char)) (text : List Char),
      whatsappUrl (buildRequest auth topic text) =
        ("https://wa.me/".toList) ++
          (buildRequest auth topic text).message.dropWhile (fun c => c == '+')) ∧
    whatsappUrl (buildRequest none none ("+14155550123".toList)) =
      ("https://wa.me/14155550123".toList) ∧
    whatsappUrl (buildRequest none none ("14155550123".toList)) =
      ("https://wa.me/14155550123".toList) := by
  refine ⟨?_, by decide, by decide⟩
  intro auth topic text
  rfl

/-- C8. The phone-shape heuristic holds exactly when the trimmed input is
non-empty with length at most 20, consists only of ASCII digits, plus,
hyphen, space and parentheses, and has at least 6 ASCII digits; and the
claim's five concrete examples hold. -/
theorem looks_like_phone_number_spec :
    (∀ text : List Char, looks_like_phone_number text = true ↔ specPhoneShape text) ∧
    looks_like_phone_number ("+1 (415) 555-0123".toList) = true ∧
    looks_like_phone_number ("hello".toList) = false ∧
    looks_like_phone_number ("12345".toList) = false ∧
    looks_like_phone_number (List.replicate 30 '1') = false ∧
    looks_like_phone_number [] = false := by
  refine ⟨?_, by decide, by decide, by decide, by decide, by decide⟩
  intro text
  unfold looks_like_phone_number specPhoneShape
  dsimp only
  set s := rustTrim text with hs
  by_cases hv : s.all validPhoneChar = true
  · have hlen := utf8Len_of_valid s hv
    have hall := List.all_eq_true.mp hv
    constructor
    · intro h
      split at h
      · exact absurd h (by simp)
      · rename_i hcond
        simp only [Bool.or_eq_true, decide_eq_true_eq, not_or, List.isEmpty_iff] at hcond
        simp only [Bool.and_eq_true, decide_eq_true_eq] at h
        refine ⟨hcond.1, by omega, hall, h.1⟩
    · intro ⟨h1, h2, _, h4⟩
      rw [if_neg (by simp [List.isEmpty_iff, h1]; omega)]
      simp [hv, h4]
  · constructor
    · intro h
      split at h
      · exact absurd h (by simp)
      · simp only [Bool.and_eq_true] at h
        exact absurd h.2 hv
    · intro ⟨_, _, h3, _⟩
      exact absurd (List.all_eq_true.mpr h3) hv

/-- C9 counterexample. With the configured country code `a` — a value
the config loader accepts — the first normalization of `1` is `+a1`,
which begins with a plus, but normalizing it again filters the `a` out,
so the claimed idempotence fails. -/
theorem normalize_idempotent_cex :
    (format_e164 (some ['a']) ['1']).head? = some '+' ∧
    format_e164 (some ['a']) (format_e164 (some ['a']) ['1']) ≠
      format_e164 (some ['a']) ['1'] :=
  ⟨by decide, by decide⟩

/-- C9 as amended. The normalizer is idempotent on outputs beginning with
a plus or empty, provided the configured country code consists only of
characters the digit filter retains (ASCII digits or plus), as the data
model requires of a country code. -/
theorem normalize_idempotent_amended (cc : Option (List Char)) (x : List Char)
    (hcc : (cc.getD []).all keepDigitPlus = true)
    (h : (format_e164 cc x).head? = some '+' ∨ format_e164 cc x = []) :
    format_e164 cc (format_e164 cc x) = format_e164 cc x := by
  have keyfix : ∀ y : List Char, (∀ c ∈ y, keepDigitPlus c = true) →
      y.head? = some '+' → format_e164 cc y = y := by
    intro y hy hy2
    unfold format_e164
    dsimp only
    rw [filter_keep_self y hy, if_pos hy2]
  have hdmem : ∀ c ∈ x.filter keepDigitPlus, keepDigitPlus c = true := by
    intro c hc
    exact List.of_mem_filter hc
  by_cases hplus : (x.filter keepDigitPlus).head? = some '+'
  · have hy : format_e164 cc x = x.filter keepDigitPlus := by
      unfold format_e164; dsimp only; rw [if_pos hplus]
    rw [hy]
    exact keyfix _ hdmem hplus
  · cases cc with
    | none =>
      have hy : format_e164 none x = x.filter keepDigitPlus := by
        unfold format_e164; dsimp only; rw [if_neg hplus]
      rcases h with h | h
      · rw [hy] at h; exact absurd h hplus
      · rw [h]; rfl
    | some l =>
      have hl : ∀ c ∈ l, keepDigitPlus c = true := by
        intro c hc
        exact List.all_eq_true.mp (by simpa using hcc) c hc
      have hmem : ∀ (rest : List Char), (∀ c ∈ rest, keepDigitPlus c = true) →
          ∀ c ∈ ('+' :: (l ++ rest)), keepDigitPlus c = true := by
        intro rest hrest c hc
        rcases List.mem_cons.mp hc with rfl | hc
        · rfl
        · rcases List.mem_append.mp hc with hc | hc
          · exact hl c hc
          · exact hrest c hc
      by_cases h0 : (x.filter keepDigitPlus).head? = some '0'
      · have hy : format_e164 (some l) x = '+' :: (l ++ (x.filter keepDigitPlus).tail) := by
          unfold format_e164; dsimp only; rw [if_neg hplus, if_pos h0]
        rw [hy]
        exact keyfix _ (hmem _ (fun c hc => hdmem c (List.mem_of_mem_tail hc))) rfl
      · have hy : format_e164 (some l) x = '+' :: (l ++ x.filter keepDigitPlus) := by
          unfold format_e164; dsimp only; rw [if_neg hplus, if_neg h0]
        rw [hy]
        exact keyfix _ (hmem _ hdmem) rfl

/-- Witness for the amended C9 at a concrete digit country code. -/
theorem normalize_idempotent_amended_witness :
    format_e164 (some ['1']) (format_e164 (some ['1']) ("415".toList)) =
      format_e164 (some ['1']) ("415".toList) :=
  normalize_idempotent_amended (some ['1']) ("415".toList) (by decide)
    (Or.inl (by decide))

/-- C10. With a country code configured, the normalizer always returns a
non-empty string beginning with a plus; empty retained digits yield
exactly the plus followed by the code; hence an Enter frame on a
non-empty field in the idle state (not waiting, sender still held)
always dispatches the publish request. -/
theorem country_code_always_plus :
    (∀ (cc raw : List Char),
      format_e164 (some cc) raw ≠ [] ∧ (format_e164 (some cc) raw).head? = some '+') ∧
    (∀ (cc raw : List Char), raw.filter keepDigitPlus = [] →
      format_e164 (some cc) raw = '+' :: cc) ∧
    (∀ (s : AppState) (fi : FrameInput) (cc : List Char),
      s.country_code = some cc → s.http_sender = some () →
      s.waiting_for_response = false → s.input_text ≠ [] → fi.enter_commit = true →
      (update s [] fi).dispatched =
        some (buildRequest s.auth_token s.notify_topic
          (format_e164 (some cc) s.input_text))) := by
  refine ⟨format_e164_some_spec, ?_, ?_⟩
  · intro cc raw h
    unfold format_e164
    dsimp only
    rw [h]
    simp
  · intro s fi cc h1 h2 h3 h4 h5
    unfold update
    dsimp only
    rw [focus_clear]
    have hcond : (fi.enter_commit &&
        (!({ s with should_focus := false } : AppState).input_text.isEmpty &&
          !({ s with should_focus := false } : AppState).waiting_for_response)) = true := by
      dsimp only
      rw [h5, h3]
      simp [h4]
    rw [if_pos hcond]
    unfold send_http_request
    dsimp only
    rw [h2]
    dsimp only
    rw [h1]
    rw [if_neg (format_e164_some_spec cc s.input_text).1]

/-- Witness for C10: the empty input with country code 49 normalizes to
`+49`, and a concrete idle Enter frame on non-normalizable text still
dispatches. -/
theorem country_code_always_plus_witness :
    format_e164 (some ("49".toList)) [] = ("+49".toList) ∧
    (update ⟨("abc".toList), false, some (), false, none, some ("1".toList), none⟩ []
      ⟨true, false⟩).dispatched =
      some (buildRequest none none (format_e164 (some ("1".toList)) ("abc".toList))) := by
  constructor
  · have h := country_code_always_plus.2.1 ("49".toList) [] rfl
    rw [h]
    rfl
  · exact country_code_always_plus.2.2
      ⟨("abc".toList), false, some (), false, none, some ("1".toList), none⟩
      ⟨true, false⟩ ("1".toList) rfl rfl rfl (by decide) rfl

end Callinit
